import Mathlib

/-!
# Verification of the Mixcloud chat trigger server core (src/server.js)

Shallow embedding of the monitoring engine of `src/server.js`:
the tick procedure `checkForTriggers` (dedup window, trigger matching,
event emission), the lifecycle operations `startMonitoring` /
`stopMonitoring`, the listener `setTriggers` message handler, and the
scheduling behaviour of `setInterval` with an `async` callback.

Conventions of the embedding:
* A JavaScript string is a Lean `String`; `s.toLowerCase()` is
  `String.toLower`, `hay.includes(needle)` is substring containment of
  the character lists.
* A JavaScript `Set` (which iterates in insertion order) is a
  duplicate-free `List String` in insertion order; `new Set(arr)` is
  `listToSet arr` (keep the first occurrence of each element),
  `Array.from(s).slice(-50)` is `lastN 50 s`.
* Effects (console/broadcast) are returned as an explicit `List Event`;
  external outcomes (puppeteer launch, page sampling) are passed in as
  explicit outcome values.
-/

namespace MixcloudServer

/-- One chat entry extracted from the page: `{ username, text }`
(src/server.js line 261). -/
structure ChatMessage where
  username : String
  text : String
deriving DecidableEq, Repr

/-- `id: ${username}:${text}` — the dedup identity of a message
(src/server.js line 261). -/
def msgId (m : ChatMessage) : String :=
  m.username ++ ":" ++ m.text

/-- One configured trigger `{ word }` (elements of `triggerWords`). -/
structure Trigger where
  word : String
deriving DecidableEq, Repr

/-- An event delivered to listeners: the `{type:'log',...}` and
`{type:'trigger',...}` payloads of `log` / `broadcastMessage`
(src/server.js lines 149-168, 282-289). -/
inductive Event where
  | log (message : String) (logType : String)
  | trigger (word : String) (message : String)
deriving DecidableEq, Repr

/-- Whether an event is a `trigger` payload. -/
def Event.isTrigger : Event → Bool
  | .trigger _ _ => true
  | _ => false

/-- JavaScript `s.toLowerCase()`: lowercase each character
(src/server.js line 281; `Char.toLower` models the case mapping). -/
def jsToLower (s : String) : String :=
  ⟨s.toList.map Char.toLower⟩

/-- JavaScript `hay.includes(needle)`: `needle` occurs as a contiguous
substring of `hay` (src/server.js line 281). -/
def jsIncludes (hay needle : String) : Bool :=
  decide (needle.toList <:+: hay.toList)

/-- Insert into an insertion-ordered set: a JS `Set.add` keeps the first
occurrence and appends unseen elements. -/
def setInsert (l : List String) (x : String) : List String :=
  if x ∈ l then l else l ++ [x]

/-- `new Set(arr)` for an insertion-ordered set model: deduplicate,
keeping first occurrences in order. -/
def listToSet (xs : List String) : List String :=
  xs.foldl setInsert []

/-- `Array.from(s).slice(-n)`: the last `n` elements (all of them when
there are fewer than `n`). -/
def lastN (n : Nat) (l : List String) : List String :=
  l.drop (l.length - n)

/-- The test of the inner trigger loop:
`message.text.toLowerCase().includes(trigger.word.toLowerCase())`
(src/server.js line 281). -/
def triggerMatches (text : String) (t : Trigger) : Bool :=
  jsIncludes (jsToLower text) (jsToLower t.word)

/-- The inner `for (const trigger of triggerWords)` loop with its
`break` (src/server.js lines 280-294): the first trigger, in list
order, whose lowercased word is a substring of the lowercased text. -/
def matchTrigger (text : String) : List Trigger → Option String
  | [] => none
  | t :: rest =>
      if triggerMatches text t then some t.word else matchTrigger text rest

/-- The events the tick emits for one message of `newMessages`
(src/server.js lines 275-295): skip empty text; otherwise on the first
matching trigger emit the match log and the trigger broadcast. -/
def processMessage (triggers : List Trigger) (m : ChatMessage) : List Event :=
  if m.text = "" then []
  else
    match matchTrigger m.text triggers with
    | none => []
    | some w =>
        [Event.log ("Trigger \"" ++ w ++ "\" detected in message from "
            ++ m.username) "info",
         Event.trigger w (m.username ++ ": " ++ m.text)]

/-- `messages.filter(msg => !lastMessages.has(msg.id))`
(src/server.js line 266). -/
def newMessages (seen : List String) (msgs : List ChatMessage) :
    List ChatMessage :=
  msgs.filter (fun m => !(seen.contains (msgId m)))

/-- The dedup/match state a tick reads and writes. -/
structure TickState where
  lastMessages : List String
  triggerWords : List Trigger
deriving DecidableEq, Repr

/-- The body of `checkForTriggers` once the page returned an entry list
(src/server.js lines 256-295): filter to unseen messages, update
`lastMessages := new Set([...Array.from(lastMessages).slice(-50),
...newMessages.map(msg => msg.id)])`, then emit the match events of the
new messages in arrival order. -/
def tick (st : TickState) (msgs : List ChatMessage) :
    TickState × List Event :=
  let fresh := newMessages st.lastMessages msgs
  let seen' := listToSet (lastN 50 st.lastMessages ++ fresh.map msgId)
  (⟨seen', st.triggerWords⟩,
   (fresh.map (processMessage st.triggerWords)).flatten)

/-! ## Helper lemmas about the insertion-ordered set model -/

lemma mem_setInsert (acc : List String) (a x : String) :
    x ∈ setInsert acc a ↔ x ∈ acc ∨ x = a := by
  unfold setInsert
  by_cases h : a ∈ acc
  · rw [if_pos h]
    constructor
    · exact Or.inl
    · rintro (hx | rfl)
      · exact hx
      · exact h
  · rw [if_neg h]
    simp

lemma mem_listToSet (xs : List String) (x : String) :
    x ∈ listToSet xs ↔ x ∈ xs := by
  have general : ∀ (ys acc : List String),
      x ∈ ys.foldl setInsert acc ↔ x ∈ acc ∨ x ∈ ys := by
    intro ys
    induction ys with
    | nil => intro acc; simp
    | cons a t ih =>
        intro acc
        rw [List.foldl_cons, ih, mem_setInsert]
        simp [or_assoc]
  simpa using general xs []

lemma length_setInsert_le (acc : List String) (a : String) :
    (setInsert acc a).length ≤ acc.length + 1 := by
  unfold setInsert
  split
  · omega
  · simp

lemma length_listToSet_le (xs : List String) :
    (listToSet xs).length ≤ xs.length := by
  have general : ∀ (ys acc : List String),
      (ys.foldl setInsert acc).length ≤ acc.length + ys.length := by
    intro ys
    induction ys with
    | nil => intro acc; simp
    | cons a t ih =>
        intro acc
        have h1 := ih (setInsert acc a)
        have h2 := length_setInsert_le acc a
        rw [List.foldl_cons]
        simp only [List.length_cons]
        omega
  simpa using general xs []

lemma length_lastN_le (n : Nat) (l : List String) : (lastN n l).length ≤ n := by
  unfold lastN
  rw [List.length_drop]
  omega

lemma lastN_isSuffix (n : Nat) (l : List String) : lastN n l <:+ l :=
  List.drop_suffix _ _

/-! ## Helper lemmas about the matcher and the tick -/

lemma matchTrigger_eq_find (text : String) (trs : List Trigger) :
    matchTrigger text trs = (trs.find? (triggerMatches text)).map Trigger.word := by
  induction trs with
  | nil => rfl
  | cons t rest ih =>
      unfold matchTrigger
      by_cases h : triggerMatches text t
      · rw [if_pos h, List.find?_cons_of_pos _ h]
        rfl
      · rw [if_neg h, List.find?_cons_of_neg _ (by simpa using h), ih]

lemma mem_newMessages (seen : List String) (msgs : List ChatMessage)
    (m : ChatMessage) :
    m ∈ newMessages seen msgs ↔ m ∈ msgs ∧ msgId m ∉ seen := by
  unfold newMessages
  simp [List.mem_filter]

lemma processMessage_filter_trigger (trs : List Trigger) (m : ChatMessage)
    (h : m.text ≠ "") :
    (processMessage trs m).filter Event.isTrigger =
      ((matchTrigger m.text trs).map
        (fun w => Event.trigger w (m.username ++ ": " ++ m.text))).toList := by
  unfold processMessage
  rw [if_neg h]
  cases matchTrigger m.text trs <;> simp [Event.isTrigger]

/-! ## C1: dedup across ticks -/

/-- C1: a message whose identity is already in the SeenSet at the start of a
tick is filtered out before any processing, so the tick emits no trigger and no
per-match log event for it; every emitted event belongs to a message whose
identity was absent from the SeenSet; and the tick that first introduces an
identity records it in the updated SeenSet, so trigger/log events fire only on
the introducing tick. -/
theorem c1_dedup_suppresses_seen (st : TickState) (msgs : List ChatMessage) :
    (∀ m ∈ msgs, msgId m ∈ st.lastMessages →
        m ∉ newMessages st.lastMessages msgs) ∧
    (∀ e ∈ (tick st msgs).2, ∃ m ∈ newMessages st.lastMessages msgs,
        msgId m ∉ st.lastMessages ∧ e ∈ processMessage st.triggerWords m) ∧
    (∀ m ∈ newMessages st.lastMessages msgs,
        msgId m ∈ (tick st msgs).1.lastMessages) := by
  refine ⟨?_, ?_, ?_⟩
  · intro m _ hseen hmem
    exact ((mem_newMessages _ _ _).1 hmem).2 hseen
  · intro e he
    rw [show (tick st msgs).2 = ((newMessages st.lastMessages msgs).map
        (processMessage st.triggerWords)).flatten from rfl] at he
    rw [List.mem_flatten] at he
    obtain ⟨l, hl, hel⟩ := he
    rw [List.mem_map] at hl
    obtain ⟨m, hm, rfl⟩ := hl
    exact ⟨m, hm, ((mem_newMessages _ _ _).1 hm).2, hel⟩
  · intro m hm
    rw [show (tick st msgs).1.lastMessages = listToSet (lastN 50 st.lastMessages
        ++ (newMessages st.lastMessages msgs).map msgId) from rfl]
    rw [mem_listToSet, List.mem_append]
    exact Or.inr (List.mem_map_of_mem _ hm)

/-- Concrete witness for C1, the spec's scenario: alice's message, already
introduced by a previous tick, is not among the new messages of the next one. -/
theorem c1_dedup_suppresses_seen_witness :
    (⟨"alice", "any giveaway soon?"⟩ : ChatMessage) ∉
      newMessages ["alice:any giveaway soon?"]
        [⟨"alice", "any giveaway soon?"⟩] :=
  (c1_dedup_suppresses_seen
      ⟨["alice:any giveaway soon?"], [⟨"giveaway"⟩]⟩
      [⟨"alice", "any giveaway soon?"⟩]).1
    ⟨"alice", "any giveaway soon?"⟩ (by decide) (by decide)

/-! ## C2: first-match-wins trigger selection -/

/-- C2: for a message with non-empty text, the tick emits exactly one trigger
event exactly when some configured trigger's lowercased word is a substring of
the lowercased text; the emitted event carries the first such word in
configuration order (`List.find?` order), later triggers are never reported,
and a message never produces more than one trigger event. -/
theorem c2_first_match_wins (trs : List Trigger) (m : ChatMessage)
    (h : m.text ≠ "") :
    (∀ t : Trigger, trs.find? (triggerMatches m.text) = some t →
        (processMessage trs m).filter Event.isTrigger =
          [Event.trigger t.word (m.username ++ ": " ++ m.text)]) ∧
    (trs.find? (triggerMatches m.text) = none →
        (processMessage trs m).filter Event.isTrigger = []) ∧
    ((processMessage trs m).filter Event.isTrigger).length ≤ 1 := by
  have hfilter := processMessage_filter_trigger trs m h
  have hmatch := matchTrigger_eq_find m.text trs
  refine ⟨?_, ?_, ?_⟩
  · intro t ht
    rw [hfilter, hmatch, ht]
    rfl
  · intro ht
    rw [hfilter, hmatch, ht]
    rfl
  · rw [hfilter]
    cases matchTrigger m.text trs <;> simp

/-- Concrete witness for C2: `"Help"` and `"me"` both match
`"please HELP me"` case-insensitively; only the first configured word
produces the single trigger event. -/
theorem c2_first_match_wins_witness :
    (processMessage [⟨"Help"⟩, ⟨"me"⟩]
        ⟨"u", "please HELP me"⟩).filter Event.isTrigger =
      [Event.trigger "Help" "u: please HELP me"] :=
  (c2_first_match_wins [⟨"Help"⟩, ⟨"me"⟩] ⟨"u", "please HELP me"⟩
      (by decide)).1 ⟨"Help"⟩ (by decide)

/-! ## C3: bounded SeenSet growth -/

/-- C3: for every state (in particular every reachable one) and every tick,
the SeenSet size immediately after the tick's update step is at most 50 plus
the number of new messages introduced by that tick. -/
theorem c3_seen_set_bounded (st : TickState) (msgs : List ChatMessage) :
    (tick st msgs).1.lastMessages.length ≤
      50 + (newMessages st.lastMessages msgs).length := by
  have h1 := length_listToSet_le (lastN 50 st.lastMessages
      ++ (newMessages st.lastMessages msgs).map msgId)
  have h2 := length_lastN_le 50 st.lastMessages
  rw [show (tick st msgs).1.lastMessages = listToSet (lastN 50 st.lastMessages
      ++ (newMessages st.lastMessages msgs).map msgId) from rfl]
  rw [List.length_append, List.length_map] at h1
  omega

/-! ## C4: SeenSet trimming policy -/

/-- 50 identities present before the decisive tick (all with empty username,
so each identity is `":" ++ digits`). -/
def c4SeenBefore : List String :=
  (List.range 50).map (fun i => ":" ++ toString (100 + i))

/-- A batch of 51 chat entries, none of them seen before. -/
def c4Batch : List ChatMessage :=
  (List.range 51).map (fun i => ⟨"", toString i⟩)

set_option maxRecDepth 100000 in
/-- C4 counterexample: a tick that introduces 51 new messages leaves the
SeenSet at 101 identities — the code never trims the set back to 100 after
its additions, contradicting the claimed total capacity N=100. -/
theorem c4_capacity_counterexample :
    (newMessages c4SeenBefore c4Batch).length = 51 ∧
    100 < (tick ⟨c4SeenBefore, []⟩ c4Batch).1.lastMessages.length := by
  constructor
  · decide
  · decide

/-- C4 amended: before each tick's additions the SeenSet is trimmed to its
most recent 50 identities — a suffix of the insertion-ordered sequence, so the
oldest identities are the ones evicted — and every retained identity survives
into the updated set; after the additions the size is at most 50 plus the
number of new messages, hence at most 100 only when a tick introduces at most
50 new messages. -/
theorem c4_trim_policy (st : TickState) (msgs : List ChatMessage) :
    lastN 50 st.lastMessages <:+ st.lastMessages ∧
    (lastN 50 st.lastMessages).length ≤ 50 ∧
    (∀ x ∈ lastN 50 st.lastMessages, x ∈ (tick st msgs).1.lastMessages) ∧
    (tick st msgs).1.lastMessages.length ≤
      50 + (newMessages st.lastMessages msgs).length := by
  refine ⟨lastN_isSuffix 50 st.lastMessages, length_lastN_le 50 st.lastMessages,
    ?_, ?_⟩
  · intro x hx
    rw [show (tick st msgs).1.lastMessages = listToSet (lastN 50 st.lastMessages
        ++ (newMessages st.lastMessages msgs).map msgId) from rfl]
    rw [mem_listToSet, List.mem_append]
    exact Or.inl hx
  · have h1 := length_listToSet_le (lastN 50 st.lastMessages
        ++ (newMessages st.lastMessages msgs).map msgId)
    have h2 := length_lastN_le 50 st.lastMessages
    rw [show (tick st msgs).1.lastMessages = listToSet (lastN 50 st.lastMessages
        ++ (newMessages st.lastMessages msgs).map msgId) from rfl]
    rw [List.length_append, List.length_map] at h1
    omega

/-- Concrete witness for the C4 amended theorem: a retained identity of the
trimmed window is still present after the tick. -/
theorem c4_trim_policy_witness :
    "a:b" ∈ (tick ⟨["a:b"], []⟩ []).1.lastMessages :=
  (c4_trim_policy ⟨["a:b"], []⟩ []).2.2.1 "a:b" (by decide)

/-! ## C9: the dedup identity is not injective -/

/-- C9: `('a', 'b:c')` and `('a:b', 'c')` are distinct messages with the same
identity `"a:b:c"`. After a tick introduces the first, a tick returning the
second emits nothing and records nothing new — even though the second message
would have fired the configured trigger had it arrived fresh. -/
theorem c9_identity_collision :
    (⟨"a", "b:c"⟩ : ChatMessage) ≠ (⟨"a:b", "c"⟩ : ChatMessage) ∧
    msgId ⟨"a", "b:c"⟩ = msgId ⟨"a:b", "c"⟩ ∧
    newMessages (tick ⟨[], [⟨"c"⟩]⟩ [⟨"a", "b:c"⟩]).1.lastMessages
      [⟨"a:b", "c"⟩] = [] ∧
    (tick (tick ⟨[], [⟨"c"⟩]⟩ [⟨"a", "b:c"⟩]).1 [⟨"a:b", "c"⟩]).2 = [] ∧
    (tick (tick ⟨[], [⟨"c"⟩]⟩ [⟨"a", "b:c"⟩]).1
        [⟨"a:b", "c"⟩]).1.lastMessages = ["a:b:c"] ∧
    (tick ⟨[], [⟨"c"⟩]⟩ [⟨"a:b", "c"⟩]).2 ≠ [] := by
  decide

/-! ## C10: the empty trigger word matches everything -/

lemma triggerMatches_empty_word (text : String) :
    triggerMatches text ⟨""⟩ = true := by
  unfold triggerMatches jsIncludes
  exact decide_eq_true ⟨[], (jsToLower text).toList, rfl⟩

lemma matchTrigger_isSome (text : String) (trs : List Trigger) (t : Trigger)
    (hmem : t ∈ trs) (hmatch : triggerMatches text t = true) :
    ∃ w, matchTrigger text trs = some w := by
  induction trs with
  | nil => cases hmem
  | cons a rest ih =>
      unfold matchTrigger
      by_cases h : triggerMatches text a = true
      · exact ⟨a.word, by rw [if_pos h]⟩
      · rcases List.mem_cons.1 hmem with rfl | hmem'
        · exact absurd hmatch h
        · obtain ⟨w, hw⟩ := ih hmem'
          exact ⟨w, by rw [if_neg h, hw]⟩

lemma matchTrigger_append_none (text : String) (pre post : List Trigger)
    (h : ∀ t ∈ pre, triggerMatches text t = false) :
    matchTrigger text (pre ++ post) = matchTrigger text post := by
  induction pre with
  | nil => rfl
  | cons a rest ih =>
      have ha := h a (List.mem_cons_self a rest)
      rw [List.cons_append]
      rw [show matchTrigger text (a :: (rest ++ post)) =
          if triggerMatches text a = true then some a.word
          else matchTrigger text (rest ++ post) from rfl]
      rw [if_neg (by simp [ha]), ih (fun t ht => h t (List.mem_cons_of_mem a ht))]

/-- C10: if the configured trigger list contains the empty word, then every
message with non-empty text matches some trigger and emits exactly one
trigger event; and whenever no trigger configured before the empty word
matches, the match is the empty word itself — the empty word wins over any
later-configured word. -/
theorem c10_empty_trigger_word (trs : List Trigger) (m : ChatMessage)
    (hmem : (⟨""⟩ : Trigger) ∈ trs) (htext : m.text ≠ "") :
    (∃ w, matchTrigger m.text trs = some w) ∧
    ((processMessage trs m).filter Event.isTrigger).length = 1 ∧
    (∀ pre post, trs = pre ++ (⟨""⟩ : Trigger) :: post →
        (∀ t ∈ pre, triggerMatches m.text t = false) →
        matchTrigger m.text trs = some "") := by
  have hsome := matchTrigger_isSome m.text trs ⟨""⟩ hmem
    (triggerMatches_empty_word m.text)
  refine ⟨hsome, ?_, ?_⟩
  · obtain ⟨w, hw⟩ := hsome
    rw [processMessage_filter_trigger trs m htext, hw]
    rfl
  · intro pre post hsplit hpre
    rw [hsplit, matchTrigger_append_none m.text pre _ hpre]
    unfold matchTrigger
    rw [if_pos (triggerMatches_empty_word m.text)]

/-- Concrete witness for C10: no earlier word matches `"hi"`, so the empty
word placed second wins over the later word. -/
theorem c10_empty_trigger_word_witness :
    matchTrigger "hi" [⟨"xyz"⟩, ⟨""⟩, ⟨"zzz"⟩] = some "" :=
  (c10_empty_trigger_word [⟨"xyz"⟩, ⟨""⟩, ⟨"zzz"⟩] ⟨"u", "hi"⟩
      (by decide) (by decide)).2.2 [⟨"xyz"⟩] [⟨"zzz"⟩] rfl (by decide)

/-! ## Lifecycle state and operations (`startMonitoring` / `stopMonitoring`) -/

/-- The module-level mutable state of src/server.js lines 8-16 that the
lifecycle operations touch. A live puppeteer handle is `some ()`. -/
structure ServerState where
  browser : Option Unit
  page : Option Unit
  isMonitoring : Bool
  mixcloudUrl : String
  lastMessages : List String
  checkInterval : Bool
  triggerWords : List Trigger
deriving DecidableEq, Repr

/-- `stopMonitoring` (src/server.js lines 215-236): clear the interval if
set, close and null the browser and page if open, reset `isMonitoring` and
`lastMessages`, then log "Monitoring stopped" — unconditionally. -/
def stopMonitoring (s : ServerState) : ServerState × List Event :=
  ({ s with checkInterval := false, browser := none, page := none,
            isMonitoring := false, lastMessages := [] },
   [Event.log "Monitoring stopped" "info"])

/-- Outcome of the external puppeteer calls inside `startMonitoring`:
either everything up to `page.goto` succeeds, or `puppeteer.launch`
rejects, or `page.goto` rejects after the browser was opened. -/
inductive LaunchOutcome where
  | ok
  | launchFail (msg : String)
  | gotoFail (msg : String)
deriving DecidableEq, Repr

/-- `startMonitoring(url)` (src/server.js lines 171-212): if already
monitoring, first run the full `stopMonitoring`; log the start; then on a
launch/goto failure log the error and rethrow (modelled as `Except.error`),
and on success set `mixcloudUrl`, `isMonitoring`, a fresh `lastMessages`
and the polling interval. Returns the final state, the emitted events in
order, and the propagated result. -/
def startMonitoring (s : ServerState) (url : String) (o : LaunchOutcome) :
    ServerState × List Event × Except String Unit :=
  let stopped := if s.isMonitoring then stopMonitoring s else (s, [])
  let s0 := stopped.1
  let evs0 := stopped.2 ++ [Event.log ("Starting browser for: " ++ url) "info"]
  match o with
  | .launchFail m =>
      (s0, evs0 ++ [Event.log ("Error starting monitoring: " ++ m) "error"],
       .error m)
  | .gotoFail m =>
      ({ s0 with browser := some (), page := some () },
       evs0 ++ [Event.log ("Error starting monitoring: " ++ m) "error"],
       .error m)
  | .ok =>
      ({ s0 with browser := some (), page := some (), mixcloudUrl := url,
                 isMonitoring := true, lastMessages := [],
                 checkInterval := true },
       evs0 ++ [Event.log "Connected to Mixcloud stream" "info"], .ok ())

/-! ## C6: `stop()` is idempotent -/

/-- C6: from any state — in particular when already idle — `stopMonitoring`
leaves the state idle (not monitoring, SeenSet empty, interval cleared,
browser and page released) and emits exactly one "Monitoring stopped"
info-log event; running it again produces the identical result. -/
theorem c6_stop_idempotent (s : ServerState) :
    (stopMonitoring s).1.isMonitoring = false ∧
    (stopMonitoring s).1.lastMessages = [] ∧
    (stopMonitoring s).1.checkInterval = false ∧
    (stopMonitoring s).1.browser = none ∧
    (stopMonitoring s).1.page = none ∧
    (stopMonitoring s).2 = [Event.log "Monitoring stopped" "info"] ∧
    stopMonitoring (stopMonitoring s).1 = stopMonitoring s := by
  refine ⟨rfl, rfl, rfl, rfl, rfl, rfl, rfl⟩

/-! ## C7: a failed `start` returns to idle and surfaces the error -/

/-- C7: when acquiring the content source fails (launch or navigation), the
session is not active afterwards, the poll interval is not scheduled, the
failure is propagated to the caller as an error, and a Log(error) event is
emitted. The hypothesis is the system invariant that the interval is only
ever set while monitoring. -/
theorem c7_start_failure_idle (s : ServerState) (url : String)
    (o : LaunchOutcome) (m : String)
    (hinv : s.checkInterval = true → s.isMonitoring = true)
    (ho : o = .launchFail m ∨ o = .gotoFail m) :
    (startMonitoring s url o).1.isMonitoring = false ∧
    (startMonitoring s url o).1.checkInterval = false ∧
    (startMonitoring s url o).2.2 = .error m ∧
    Event.log ("Error starting monitoring: " ++ m) "error" ∈
      (startMonitoring s url o).2.1 := by
  have hstate : ∀ s' : ServerState,
      s' = (if s.isMonitoring then stopMonitoring s else (s, [])).1 →
      s'.isMonitoring = false ∧ s'.checkInterval = false := by
    intro s' hs'
    by_cases hm : s.isMonitoring
    · rw [hs', if_pos hm]
      exact ⟨rfl, rfl⟩
    · rw [hs', if_neg hm]
      have hb : s.isMonitoring = false := by
        cases hb : s.isMonitoring
        · rfl
        · exact absurd hb hm
      refine ⟨hb, ?_⟩
      cases hc : s.checkInterval
      · rfl
      · exact absurd (hinv hc) (by rw [hb]; exact Bool.false_ne_true)
  rcases ho with rfl | rfl
  · obtain ⟨h1, h2⟩ := hstate _ rfl
    exact ⟨h1, h2, rfl, by simp [startMonitoring]⟩
  · obtain ⟨h1, h2⟩ := hstate _ rfl
    exact ⟨h1, h2, rfl, by simp [startMonitoring]⟩

/-- Concrete witness for C7: starting from the idle initial state with a
failing launch. -/
theorem c7_start_failure_idle_witness :
    (startMonitoring ⟨none, none, false, "", [], false, []⟩ "https://x"
        (.launchFail "boom")).1.isMonitoring = false ∧
    (startMonitoring ⟨none, none, false, "", [], false, []⟩ "https://x"
        (.launchFail "boom")).1.checkInterval = false ∧
    (startMonitoring ⟨none, none, false, "", [], false, []⟩ "https://x"
        (.launchFail "boom")).2.2 = .error "boom" ∧
    Event.log ("Error starting monitoring: " ++ "boom") "error" ∈
      (startMonitoring ⟨none, none, false, "", [], false, []⟩ "https://x"
        (.launchFail "boom")).2.1 :=
  c7_start_failure_idle ⟨none, none, false, "", [], false, []⟩ "https://x"
    (.launchFail "boom") "boom" (by decide) (Or.inl rfl)

/-! ## C8: the `setTriggers` listener message -/

/-- A listener connection handle, identified by its index in `clients`. -/
structure WsState where
  triggerWords : List Trigger
  clients : List Nat
deriving DecidableEq, Repr

/-- A parsed message from a listener (src/server.js lines 129-144): either a
well-formed `setTriggers` payload or anything else (other types and parse
failures are ignored by the handler). -/
inductive ClientMessage where
  | setTriggers (triggers : List Trigger)
  | otherMessage
deriving DecidableEq, Repr

/-- The `ws.on('message')` handler (src/server.js lines 129-144): on
`setTriggers`, replace the process-wide trigger list and `ws.send` the
acknowledgment to the originating socket only; otherwise do nothing. Sends
are returned as (addressee, event) pairs. -/
def handleClientMessage (st : WsState) (sender : Nat) (msg : ClientMessage) :
    WsState × List (Nat × Event) :=
  match msg with
  | .setTriggers ts =>
      ({ st with triggerWords := ts },
       [(sender,
         Event.log ("Updated " ++ toString ts.length ++ " trigger words")
           "info")])
  | .otherMessage => (st, [])

/-- C8: a `setTriggers` message replaces the process-wide trigger list with
the supplied words, and the acknowledgment carrying the new count is a single
send addressed to the originating listener — no other listener receives
anything. -/
theorem c8_set_triggers_ack (st : WsState) (sender : Nat)
    (ts : List Trigger) :
    (handleClientMessage st sender (.setTriggers ts)).1.triggerWords = ts ∧
    (handleClientMessage st sender (.setTriggers ts)).1.clients = st.clients ∧
    (handleClientMessage st sender (.setTriggers ts)).2 =
      [(sender,
        Event.log ("Updated " ++ toString ts.length ++ " trigger words")
          "info")] ∧
    (∀ p ∈ (handleClientMessage st sender (.setTriggers ts)).2,
        p.1 = sender) := by
  refine ⟨rfl, rfl, rfl, ?_⟩
  intro p hp
  rw [show (handleClientMessage st sender (.setTriggers ts)).2 =
      [(sender,
        Event.log ("Updated " ++ toString ts.length ++ " trigger words")
          "info")] from rfl, List.mem_singleton] at hp
  rw [hp]

/-- Concrete witness for C8: the single acknowledgment of a two-word update
is addressed to the originating listener. -/
theorem c8_set_triggers_ack_witness :
    ((0 : Nat),
      Event.log "Updated 2 trigger words" "info").1 = 0 :=
  (c8_set_triggers_ack ⟨[], [0, 1]⟩ 0 [⟨"a"⟩, ⟨"b"⟩]).2.2.2
    (0, Event.log "Updated 2 trigger words" "info") (by decide)

/-! ## C5: scheduling of the asynchronous tick callback

`startMonitoring` schedules the tick with
`checkInterval = setInterval(checkForTriggers, 3000)` (src/server.js line
205). `checkForTriggers` is an `async` function (lines 239-299): each timer
firing invokes it, it runs synchronously up to its first `await`
(`page.evaluate`) and then suspends, and node's `setInterval` keeps firing on
its period whether or not earlier invocations have resolved. The only early
return in the callback is `if (!isMonitoring || !page) return;` (lines
240-242); the source contains no in-progress flag and no check of a pending
invocation. The model below is a step relation on the number of suspended
invocations in flight. -/

/-- Scheduler-relevant state: the tick guard's inputs and the number of
`checkForTriggers` invocations that have started and not yet resolved. -/
structure SchedulerState where
  isMonitoring : Bool
  pageOpen : Bool
  inFlight : Nat
deriving DecidableEq, Repr

/-- One step of the timer/event-loop: a firing invokes `checkForTriggers`
unconditionally; when the guard passes the invocation suspends at its first
`await` and is in flight, when the guard fails it returns at once; a
suspended invocation may resolve and finish. -/
inductive SchedStep : SchedulerState → SchedulerState → Prop where
  | fire (s : SchedulerState) (hm : s.isMonitoring = true)
      (hp : s.pageOpen = true) :
      SchedStep s { s with inFlight := s.inFlight + 1 }
  | fireGuarded (s : SchedulerState)
      (h : s.isMonitoring = false ∨ s.pageOpen = false) : SchedStep s s
  | resolve (s : SchedulerState) (h : 0 < s.inFlight) :
      SchedStep s { s with inFlight := s.inFlight - 1 }

/-- States reachable by the scheduler from a given state. -/
def SchedReachable (a b : SchedulerState) : Prop :=
  Relation.ReflTransGen SchedStep a b

/-- The state right after a successful `startMonitoring`: monitoring with an
open page and no invocation in flight. -/
def schedStart : SchedulerState := ⟨true, true, 0⟩

/-- C5 counterexample: the claim that at most one tick is ever in flight is
false — from the state right after a successful start, two timer firings
with no resolution in between reach a state with two overlapping
`checkForTriggers` executions. -/
theorem c5_overlap_counterexample :
    ¬ (∀ s : SchedulerState, SchedReachable schedStart s → s.inFlight ≤ 1) := by
  intro h
  have h2 := h ⟨true, true, 2⟩
    (Relation.ReflTransGen.tail
      (Relation.ReflTransGen.single (SchedStep.fire schedStart rfl rfl))
      (SchedStep.fire ⟨true, true, 1⟩ rfl rfl))
  exact absurd h2 (by decide)

/-- C5 amended: the scheduler has no reentrancy guard. While monitoring with
an open page every firing starts a further invocation — it is neither
skipped nor queued behind the pending one — so any number of overlapping
in-flight executions is reachable; a firing is a no-op only when the
session is not monitoring or the page is gone. -/
theorem c5_no_reentrancy_guard :
    (∀ s : SchedulerState, s.isMonitoring = true → s.pageOpen = true →
        SchedStep s { s with inFlight := s.inFlight + 1 }) ∧
    (∀ n : Nat, ∃ s : SchedulerState,
        SchedReachable schedStart s ∧ s.inFlight = n) := by
  constructor
  · exact fun s hm hp => SchedStep.fire s hm hp
  · intro n
    refine ⟨⟨true, true, n⟩, ?_, rfl⟩
    induction n with
    | zero => exact Relation.ReflTransGen.refl
    | succ k ih =>
        exact Relation.ReflTransGen.tail ih
          (SchedStep.fire ⟨true, true, k⟩ rfl rfl)

/-- Concrete witness for the amended C5 theorem: a firing while one
invocation is already in flight starts a second one. -/
theorem c5_no_reentrancy_guard_witness :
    SchedStep ⟨true, true, 1⟩ ⟨true, true, 2⟩ :=
  c5_no_reentrancy_guard.1 ⟨true, true, 1⟩ rfl rfl

end MixcloudServer
